import Mathlib

/-!
Shallow embedding of the news-sentiment aggregation server
(`src/code/server/main.py`) and proofs about its specified behaviour.

Modelling conventions:
* JSON string values are Lean `String`s.  Every key of a raw record that
  the transformer reads (`uuid`, `title`, `description`, `snippet`,
  `source`, `url`, `published_at`, `entities`, and each entity's `type`
  and `symbol`) is an `Option`: `none` models an absent key, whose `[...]`
  access raises `KeyError`, which the embedding reflects through `Except`
  in the source's access order.  A JSON `null` is modelled where it
  changes behaviour — the `description` field, whose value is an
  `Option String` with `none` for `null` (falsy, so the snippet fallback
  fires).  A `null` in the other string positions would flow through the
  transformer without raising and is not given a separate state: present
  values are modelled as strings, the type the page contract supplies.
  Bodies that fail to parse at all are absorbed upstream into a `null`
  page by `fetch_news_page`, as in the source.
* Python's comparison of the ISO-8601 `publishedAt` strings is code-point
  lexicographic; `pubLe` implements that order on `String.data`.
* Floating-point confidence scores only ever flow through `max` and the
  interval checks of the spec, so they are embedded as rationals.
* `datetime.now()` instants are abstract `Nat` time units.
* The two `cachetools.TTLCache` stores are embedded as association lists
  from key to insertion time (plus value); a lookup finds the most recent
  write, and liveness of an entry written at `t` observed at `now` is
  `now < t + ttl`, which is `cachetools`' contains-test.
* The upstream news provider is an oracle `RequestParams → FetchResult`;
  the sentiment provider is an oracle `String → SResp` giving, per input
  text, the parsed ranked class list (or a failure).
-/

instance {e a : Type} [DecidableEq e] [DecidableEq a] : DecidableEq (Except e a) :=
  fun x y =>
    match x, y with
    | .error u, .error v =>
      if h : u = v then isTrue (by rw [h]) else isFalse (by simp [h])
    | .ok u, .ok v =>
      if h : u = v then isTrue (by rw [h]) else isFalse (by simp [h])
    | .error _, .ok _ => isFalse (by simp)
    | .ok _, .error _ => isFalse (by simp)

/-- Code-point lexicographic order on character lists: Python's `<=` on
the underlying strings. -/
def charListLe : List Char → List Char → Bool
  | [], _ => true
  | _ :: _, [] => false
  | a :: s, b :: t => if a < b then true else if b < a then false else charListLe s t

/-- Python string comparison `s <= t` (code-point lexicographic). -/
def pubLe (s t : String) : Bool := charListLe s.data t.data

/-- Python `str.lower()` restricted to ASCII, which is all the sentiment
labels ever contain. -/
def pyLower (s : String) : String := String.mk (s.data.map Char.toLower)

/-- Python truthiness-based `x or d` for an optional string (`main.py`
lines 97, 151, 181): `None` and `""` are falsy. -/
def pyOr (x : Option String) (d : String) : String :=
  match x with
  | none => d
  | some s => if s = "" then d else s

/-- Python f-string interpolation of an `Optional[str]`: `None` prints as
`"None"` (`main.py` lines 159, 193, 207). -/
def pyStr (x : Option String) : String :=
  match x with
  | none => "None"
  | some s => s

/-- One entry of a raw record's `entities` list (news provider JSON).
A `none` field models an absent key: `entity["type"]` is read for every
entity and `entity["symbol"]` for every equity-typed entity, and either
access raises `KeyError` when the key is missing. -/
structure RawEntity where
  type : Option String
  symbol : Option String
deriving DecidableEq, Repr

/-- One raw article record inside a provider page's `data` list.  A
`none` field models an absent key, whose access raises `KeyError`.  The
`description` value is itself an `Option String`: `some none` is the key
present with JSON `null` (falsy, like `some (some "")`), triggering the
snippet fallback. -/
structure RawRecord where
  uuid : Option String
  title : Option String
  description : Option (Option String)
  snippet : Option String
  source : Option String
  url : Option String
  published_at : Option String
  entities : Option (List RawEntity)
deriving DecidableEq, Repr

/-- An article as built by `transform_news_data` (`main.py` 82-90),
before sentiment enrichment. -/
structure TransformedArticle where
  id : String
  title : String
  description : String
  source : String
  url : String
  publishedAt : String
  relatedSymbols : List String
deriving DecidableEq, Repr

/-- An article after sentiment enrichment (`main.py` 124-125); this is the
shape returned to callers. -/
structure Article where
  id : String
  title : String
  description : String
  source : String
  url : String
  publishedAt : String
  relatedSymbols : List String
  sentiment : String
  sentiment_score : ℚ
deriving DecidableEq, Repr

/-- One `{label, score}` pair of the sentiment service's ranked output. -/
structure LabelScore where
  label : String
  score : ℚ
deriving DecidableEq, Repr

/-- Observable behaviour of one sentiment-service call (`main.py` 58-64):
`failure` covers every path on which parsing `result[0]` or the fields of
its elements raises (network error, malformed response); `ok classes` is a
well-formed ranked list, possibly empty. -/
inductive SResp
  | failure
  | ok (classes : List LabelScore)
deriving DecidableEq, Repr

/-- Python `max(classes, key=lambda x: x['score'])` starting from first
element `c`: keeps the earliest element among maximal scores. -/
def maxByScore (c : LabelScore) (cs : List LabelScore) : LabelScore :=
  cs.foldl (fun best x => if best.score < x.score then x else best) c

/-- The `sentiment_mapping` dictionary lookup with default `"NEUTRAL"`
(`main.py` 65-70). -/
def sentiment_mapping (l : String) : String :=
  if l = "positive" then "POSITIVE"
  else if l = "neutral" then "NEUTRAL"
  else if l = "negative" then "NEGATIVE"
  else "NEUTRAL"

/-- The Python literal `0.5`, written as a rational in normalised form so
that concrete runs of the embedding evaluate inside the kernel;
`half_eq_ofScientific` below identifies it with the `0.5` numeral. -/
def half : ℚ := ⟨1, 2, by decide, by decide⟩

theorem half_eq_ofScientific : half = (0.5 : ℚ) := by
  unfold half
  rw [Rat.mk'_eq_divInt]
  norm_num [Rat.divInt_eq_div]

/-- `get_sentiment` (`main.py` 56-72) as a function of the service call's
observable outcome.  An empty ranked list makes `max` raise, landing in the
`except` branch, hence the default. -/
def get_sentiment : SResp → String × ℚ
  | .failure => ("NEUTRAL", half)
  | .ok [] => ("NEUTRAL", half)
  | .ok (c :: cs) =>
    let sentiment_result := maxByScore c cs
    (sentiment_mapping (pyLower sentiment_result.label), sentiment_result.score)

/-- The list comprehension `[entity["symbol"] for entity in
article["entities"] if entity["type"] == "equity"]` (`main.py` 77-81): per
entity the condition reads `type` first (raising on a missing key), and
`symbol` is read — and can raise — only for equity-typed entities. -/
def relatedSymbolsOf : List RawEntity → Except String (List String)
  | [] => .ok []
  | e :: es =>
    match e.type with
    | none => .error "KeyError: type"
    | some t =>
      if t == "equity" then
        match e.symbol with
        | none => .error "KeyError: symbol"
        | some sym =>
          match relatedSymbolsOf es with
          | .error err => .error err
          | .ok rest => .ok (sym :: rest)
      else relatedSymbolsOf es

/-- `article["description"] or article["snippet"]` (`main.py` 85): the
`description` key is read first (its absence raises before `snippet` is
touched); when its value is truthy the snippet key is never read, and
otherwise the snippet access itself can raise. -/
def descriptionOrSnippet (description : Option String) (snippet : Option String) :
    Except String String :=
  match description with
  | some d =>
    if d = "" then
      match snippet with
      | none => .error "KeyError: snippet"
      | some s => .ok s
    else .ok d
  | none =>
    match snippet with
    | none => .error "KeyError: snippet"
    | some s => .ok s

/-- The per-record body of `transform_news_data`'s loop (`main.py` 76-90),
reading the record's keys in the source's order: `entities` (with each
entity's `type`/`symbol`) first, then `uuid`, `title`,
`description`/`snippet`, `source`, `url`, `published_at`.  Any missing key
raises `KeyError`, modelled as `Except.error`. -/
def transform_news_record (article : RawRecord) : Except String TransformedArticle :=
  match article.entities with
  | none => .error "KeyError: entities"
  | some entities =>
    match relatedSymbolsOf entities with
    | .error e => .error e
    | .ok related_symbols =>
      match article.uuid with
      | none => .error "KeyError: uuid"
      | some uuid =>
        match article.title with
        | none => .error "KeyError: title"
        | some title =>
          match article.description with
          | none => .error "KeyError: description"
          | some description =>
            match descriptionOrSnippet description article.snippet with
            | .error e => .error e
            | .ok desc =>
              match article.source with
              | none => .error "KeyError: source"
              | some src =>
                match article.url with
                | none => .error "KeyError: url"
                | some url =>
                  match article.published_at with
                  | none => .error "KeyError: published_at"
                  | some published_at =>
                    .ok
                      { id := uuid
                        title := title
                        description := desc
                        source := src
                        url := url
                        publishedAt := published_at
                        relatedSymbols := related_symbols }

/-- `transform_news_data` (`main.py` 74-91): transforms records in order;
the first raising record aborts the whole page with the exception. -/
def transform_news_data : List RawRecord → Except String (List TransformedArticle)
  | [] => .ok []
  | r :: rs =>
    match transform_news_record r with
    | .error e => .error e
    | .ok a =>
      match transform_news_data rs with
      | .error e => .error e
      | .ok rest => .ok (a :: rest)

/-- The query parameters of one upstream news request as built by
`fetch_news_page` (`main.py` 95-102); the API token is configuration, not
behaviour, and is omitted. -/
structure RequestParams where
  symbols : String
  filter_entities : String
  language : String
  page : Int
  limit : Int
deriving DecidableEq, Repr

/-- Observable outcome of one upstream page request: `failure` is every
path on which `fetch_news_page` returns `None` (transport error,
non-success status, body that fails to parse); `noData` is a parsed body
that is falsy or has no usable `data` key (skipped at `main.py` 119);
`page data` is a body with a `data` record list. -/
inductive FetchResult
  | failure
  | noData
  | page (data : List RawRecord)
deriving DecidableEq, Repr

/-- The request parameters `fetch_news_page` sends for given arguments
(`main.py` 95-102): `symbols or ""`, entity filtering on, English. -/
def requestParamsFor (symbols : Option String) (page limit : Int) : RequestParams :=
  { symbols := pyOr symbols ""
    filter_entities := "true"
    language := "en"
    page := page
    limit := limit }

/-- `fetch_news_page` (`main.py` 93-107) against a provider oracle. -/
def fetch_news_page (oracle : RequestParams → FetchResult) (symbols : Option String)
    (page limit : Int) : FetchResult :=
  oracle (requestParamsFor symbols page limit)

/-- The four upstream requests issued by `fetch_all_news_pages`
(`main.py` 111-114): `for page in range(1, 5)` with shared `symbols` and
`base_limit`. -/
def issuedRequests (symbols : Option String) (base_limit : Int) : List RequestParams :=
  (List.range' 1 4).map (fun page => requestParamsFor symbols (page : Int) base_limit)

/-- Sentiment enrichment of one transformed article (`main.py` 122-125):
classify `f"{title}. {description}"` and attach label and score. -/
def enrichArticle (classify : String → SResp) (article : TransformedArticle) : Article :=
  let sentiment_text := article.title ++ ". " ++ article.description
  let res := get_sentiment (classify sentiment_text)
  { id := article.id
    title := article.title
    description := article.description
    source := article.source
    url := article.url
    publishedAt := article.publishedAt
    relatedSymbols := article.relatedSymbols
    sentiment := res.1
    sentiment_score := res.2 }

/-- Processing of one gathered page result (`main.py` 118-126): `None` and
`data`-less results contribute nothing; a `data` list is transformed (any
record-level exception propagating) and every article enriched. -/
def processPage (classify : String → SResp) : FetchResult → Except String (List Article)
  | .failure => .ok []
  | .noData => .ok []
  | .page data =>
    match transform_news_data data with
    | .error e => .error e
    | .ok news_data => .ok (news_data.map (enrichArticle classify))

/-- The accumulation loop of `fetch_all_news_pages` (`main.py` 117-126)
over the gathered page results, in page order. -/
def fetch_all_loop (classify : String → SResp) : List FetchResult → Except String (List Article)
  | [] => .ok []
  | r :: rs =>
    match processPage classify r with
    | .error e => .error e
    | .ok articles =>
      match fetch_all_loop classify rs with
      | .error e => .error e
      | .ok rest => .ok (articles ++ rest)

/-- `fetch_all_news_pages` (`main.py` 109-128): gather the four page
requests, then transform and enrich page by page. -/
def fetch_all_news_pages (oracle : RequestParams → FetchResult) (classify : String → SResp)
    (symbols : Option String) (base_limit : Int) : Except String (List Article) :=
  fetch_all_loop classify ((issuedRequests symbols base_limit).map oracle)

/-- The comparison underlying `fetched_news.sort(key=lambda x:
x["publishedAt"], reverse=True)`: article `a` may precede `b` when
`b.publishedAt <= a.publishedAt`. -/
def articleDesc (a b : Article) : Prop := pubLe b.publishedAt a.publishedAt = true

instance : DecidableRel articleDesc :=
  fun a b => inferInstanceAs (Decidable (pubLe b.publishedAt a.publishedAt = true))

/-- Python's `list.sort` is a stable sort; with `reverse=True` it orders by
descending key and keeps ties in input order.  `List.insertionSort` with
`articleDesc` has exactly these properties (proved below). -/
def sortArticlesDesc (l : List Article) : List Article :=
  l.insertionSort articleDesc

/-- `NEWS_CACHE_TTL` (`main.py` 40). -/
def NEWS_CACHE_TTL : Nat := 600

/-- `RATE_LIMIT_TTL` (`main.py` 41). -/
def RATE_LIMIT_TTL : Nat := 10

/-- A `cachetools.TTLCache` holding values of type `α`, as an association
list of (key, write time, value), most recent write first. -/
abbrev TTLStore (α : Type) : Type := List (String × Nat × α)

/-- The combined `key in cache` / `cache[key]` read of a `TTLCache`
(`main.py` 161-162): an entry written at `t` is live at `now` iff
`now < t + ttl`. -/
def cacheGet {α : Type} (ttl : Nat) (entries : TTLStore α) (key : String) (now : Nat) :
    Option α :=
  match entries.find? (fun e => e.1 == key) with
  | some (_, t, v) => if now < t + ttl then some v else none
  | none => none

/-- A `TTLCache` write `cache[key] = value` at time `now` (`main.py` 168,
194); the new entry shadows any older write to the same key. -/
def cachePut {α : Type} (entries : TTLStore α) (key : String) (now : Nat) (v : α) :
    TTLStore α :=
  (key, now, v) :: entries

/-- The `rate_limit_key in rate_limit_cache` test (`main.py` 152, 182). -/
def rlContains (entries : List (String × Nat)) (key : String) (now : Nat) : Bool :=
  match entries.find? (fun e => e.1 == key) with
  | some (_, t) => decide (now < t + RATE_LIMIT_TTL)
  | none => false

/-- The rate-limit key of `/api/news` (`main.py` 151). -/
def rateLimitKeyNews (symbols : Option String) : String :=
  "rate_limit:" ++ pyOr symbols "general"

/-- The rate-limit key of `/api/news/refresh` (`main.py` 181). -/
def rateLimitKeyRefresh (symbols : Option String) : String :=
  "rate_limit_refresh:" ++ pyOr symbols "general"

/-- The news-cache key `f"news:{symbols}:{page}:{limit}"` (`main.py` 159,
193, 207). -/
def newsCacheKey (symbols : Option String) (page limit : Int) : String :=
  "news:" ++ pyStr symbols ++ ":" ++ toString page ++ ":" ++ toString limit

/-- The module-level mutable state: `news_cache` and `rate_limit_cache`
(`main.py` 42-43). -/
structure ServerState where
  news_cache : TTLStore (List Article)
  rate_limit_cache : List (String × Nat)
deriving DecidableEq

/-- Outcome of a request to `/api/news` or `/api/news/refresh`:
HTTP 429, HTTP 500 with a message, or an article-list body. -/
inductive NewsResponse
  | rateLimited
  | internalError (msg : String)
  | ok (articles : List Article)
deriving DecidableEq, Repr

/-- The `/api/news` handler `get_news` (`main.py` 148-176), relative to the
two upstream oracles and the request arrival time `now`. -/
def get_news (oracle : RequestParams → FetchResult) (classify : String → SResp)
    (st : ServerState) (symbols : Option String) (page limit : Int) (now : Nat) :
    NewsResponse × ServerState :=
  let rate_limit_key := rateLimitKeyNews symbols
  if rlContains st.rate_limit_cache rate_limit_key now then
    (.rateLimited, st)
  else
    let st1 : ServerState := ⟨st.news_cache, (rate_limit_key, now) :: st.rate_limit_cache⟩
    let cache_key := newsCacheKey symbols page limit
    match cacheGet NEWS_CACHE_TTL st1.news_cache cache_key now with
    | some cached => (.ok cached, st1)
    | none =>
      match fetch_all_news_pages oracle classify symbols (Int.fdiv limit 3) with
      | .error msg => (.internalError msg, st1)
      | .ok fetched_news =>
        if fetched_news.isEmpty then (.ok [], st1)
        else
          let sorted := sortArticlesDesc fetched_news
          (.ok sorted, ⟨cachePut st1.news_cache cache_key now sorted, st1.rate_limit_cache⟩)

/-- The `/api/news/refresh` handler `refresh_news` (`main.py` 178-202):
separate rate-limit namespace, no cache read, fixed per-page limit 10,
cache write to the canonical `(symbols, 1, 30)` key. -/
def refresh_news (oracle : RequestParams → FetchResult) (classify : String → SResp)
    (st : ServerState) (symbols : Option String) (now : Nat) :
    NewsResponse × ServerState :=
  let rate_limit_key := rateLimitKeyRefresh symbols
  if rlContains st.rate_limit_cache rate_limit_key now then
    (.rateLimited, st)
  else
    let st1 : ServerState := ⟨st.news_cache, (rate_limit_key, now) :: st.rate_limit_cache⟩
    match fetch_all_news_pages oracle classify symbols 10 with
    | .error msg => (.internalError msg, st1)
    | .ok fetched_news =>
      if fetched_news.isEmpty then (.ok [], st1)
      else
        let sorted := sortArticlesDesc fetched_news
        let cache_key := newsCacheKey symbols 1 30
        (.ok sorted, ⟨cachePut st1.news_cache cache_key now sorted, st1.rate_limit_cache⟩)

/-! ### Properties of the lexicographic order on `publishedAt` strings -/

theorem charListLe_refl : ∀ x : List Char, charListLe x x = true
  | [] => rfl
  | a :: s => by simp [charListLe, lt_irrefl, charListLe_refl s]

theorem pubLe_refl (s : String) : pubLe s s = true := charListLe_refl s.data

theorem charListLe_total : ∀ x y : List Char, charListLe x y = true ∨ charListLe y x = true
  | [], _ => Or.inl rfl
  | _ :: _, [] => Or.inr rfl
  | a :: s, b :: t => by
    rcases lt_trichotomy a b with hab | hab | hab
    · exact Or.inl (by simp [charListLe, hab])
    · subst hab
      rcases charListLe_total s t with h | h
      · exact Or.inl (by simp [charListLe, lt_irrefl, h])
      · exact Or.inr (by simp [charListLe, lt_irrefl, h])
    · exact Or.inr (by simp [charListLe, hab])

theorem charListLe_trans :
    ∀ {x y z : List Char}, charListLe x y = true → charListLe y z = true →
      charListLe x z = true
  | [], _, _, _, _ => rfl
  | _ :: _, [], _, h1, _ => by simp [charListLe] at h1
  | _ :: _, _ :: _, [], _, h2 => by simp [charListLe] at h2
  | a :: s, b :: t, c :: u, h1, h2 => by
    simp only [charListLe] at h1 h2 ⊢
    rcases lt_trichotomy a b with hab | hab | hab
    · rcases lt_trichotomy b c with hbc | hbc | hbc
      · simp [hab.trans hbc]
      · subst hbc; simp [hab]
      · rw [if_neg (lt_asymm hbc), if_pos hbc] at h2; exact absurd h2 (by simp)
    · subst hab
      rcases lt_trichotomy a c with hac | hac | hac
      · simp [hac]
      · subst hac
        rw [if_neg (lt_irrefl a)] at h1 h2 ⊢
        rw [if_neg (lt_irrefl a)] at h1 h2 ⊢
        exact charListLe_trans h1 h2
      · rw [if_neg (lt_asymm hac), if_pos hac] at h2; exact absurd h2 (by simp)
    · rw [if_neg (lt_asymm hab), if_pos hab] at h1; exact absurd h1 (by simp)

instance : IsTotal Article articleDesc :=
  ⟨fun a b => charListLe_total b.publishedAt.data a.publishedAt.data⟩

instance : IsTrans Article articleDesc :=
  ⟨fun _ _ _ h1 h2 => charListLe_trans h2 h1⟩

/-! ### Stability of the descending sort -/

theorem filter_orderedInsert (t : String) (a : Article) (l : List Article) :
    (l.orderedInsert articleDesc a).filter (fun x => x.publishedAt == t) =
      if a.publishedAt = t then a :: l.filter (fun x => x.publishedAt == t)
      else l.filter (fun x => x.publishedAt == t) := by
  induction l with
  | nil =>
    by_cases h : a.publishedAt = t <;> simp [List.orderedInsert, h]
  | cons b l ih =>
    by_cases hr : articleDesc a b
    · rw [List.orderedInsert_of_le articleDesc l hr]
      by_cases h : a.publishedAt = t <;> simp [h]
    · rw [List.orderedInsert, if_neg hr]
      by_cases hb : b.publishedAt = t
      · by_cases h : a.publishedAt = t
        · exact absurd (show articleDesc a b by
            unfold articleDesc; rw [hb, h]; exact pubLe_refl t) hr
        · simp [hb, h, ih]
      · by_cases h : a.publishedAt = t <;> simp [hb, h, ih]

theorem filter_insertionSort (t : String) (l : List Article) :
    (l.insertionSort articleDesc).filter (fun x => x.publishedAt == t) =
      l.filter (fun x => x.publishedAt == t) := by
  induction l with
  | nil => rfl
  | cons a l ih =>
    rw [List.insertionSort, filter_orderedInsert]
    by_cases h : a.publishedAt = t <;> simp [h, ih]

/-- The sort applied by both endpoints is a permutation, descending in
`publishedAt`, and stable: articles with any given timestamp appear in
exactly their input order. -/
theorem sortArticlesDesc_spec (l : List Article) :
    List.Perm (sortArticlesDesc l) l ∧ (sortArticlesDesc l).Sorted articleDesc ∧
      ∀ t, (sortArticlesDesc l).filter (fun x => x.publishedAt == t) =
        l.filter (fun x => x.publishedAt == t) :=
  ⟨List.perm_insertionSort articleDesc l, List.sorted_insertionSort articleDesc l,
    fun t => filter_insertionSort t l⟩

/-! ### Facts about the sentiment classifier -/

theorem maxByScore_mem (c : LabelScore) (cs : List LabelScore) :
    maxByScore c cs ∈ c :: cs := by
  induction cs generalizing c with
  | nil => simp [maxByScore]
  | cons x cs ih =>
    by_cases hc : c.score < x.score
    · have h := ih x
      simp only [maxByScore, List.foldl_cons, if_pos hc]
      simp only [maxByScore] at h
      rcases List.mem_cons.mp h with h1 | h1
      · simp [h1]
      · simp [List.mem_cons.mpr (Or.inr h1)]
    · have h := ih c
      simp only [maxByScore, List.foldl_cons, if_neg hc]
      simp only [maxByScore] at h
      rcases List.mem_cons.mp h with h1 | h1
      · simp [h1]
      · simp [List.mem_cons.mpr (Or.inr h1)]

theorem get_sentiment_label (resp : SResp) :
    (get_sentiment resp).1 = "POSITIVE" ∨ (get_sentiment resp).1 = "NEUTRAL" ∨
      (get_sentiment resp).1 = "NEGATIVE" := by
  cases resp with
  | failure => simp [get_sentiment]
  | ok classes =>
    cases classes with
    | nil => simp [get_sentiment]
    | cons c cs =>
      simp only [get_sentiment, sentiment_mapping]
      split_ifs <;> simp

/-- Hypothesis that a sentiment-service response carries only confidence
scores inside `[0, 1]` (what the service contractually returns). -/
def scoresInUnit (resp : SResp) : Prop :=
  ∀ classes, resp = SResp.ok classes → ∀ cl ∈ classes, 0 ≤ cl.score ∧ cl.score ≤ 1

theorem get_sentiment_score (resp : SResp) (h : scoresInUnit resp) :
    0 ≤ (get_sentiment resp).2 ∧ (get_sentiment resp).2 ≤ 1 := by
  cases resp with
  | failure => exact ⟨by decide, by decide⟩
  | ok classes =>
    cases classes with
    | nil => exact ⟨by decide, by decide⟩
    | cons c cs => exact h (c :: cs) rfl _ (maxByScore_mem c cs)

/-! ### Shape of the aggregation pipeline's output -/

/-- The invariant the spec states for every exposed article: a three-way
sentiment label and a confidence inside `[0, 1]`. -/
def articleWellFormed (a : Article) : Prop :=
  (a.sentiment = "POSITIVE" ∨ a.sentiment = "NEUTRAL" ∨ a.sentiment = "NEGATIVE") ∧
    0 ≤ a.sentiment_score ∧ a.sentiment_score ≤ 1

theorem processPage_ok_mem (classify : String → SResp) (r : FetchResult)
    (l : List Article) (h : processPage classify r = .ok l) :
    ∀ a ∈ l, ∃ b, a = enrichArticle classify b := by
  cases r with
  | failure => cases h; simp
  | noData => cases h; simp
  | page data =>
    cases htd : transform_news_data data with
    | error e => simp [processPage, htd] at h
    | ok nd =>
      simp only [processPage, htd] at h
      cases h
      intro a ha
      rcases List.mem_map.mp ha with ⟨b, _, hb⟩
      exact ⟨b, hb.symm⟩

theorem fetch_all_loop_ok_mem (classify : String → SResp) :
    ∀ (rs : List FetchResult) (l : List Article), fetch_all_loop classify rs = .ok l →
      ∀ a ∈ l, ∃ b, a = enrichArticle classify b := by
  intro rs
  induction rs with
  | nil => intro l h; cases h; simp
  | cons r rs ih =>
    intro l h
    cases hp : processPage classify r with
    | error e => simp [fetch_all_loop, hp] at h
    | ok articles =>
      cases hrest : fetch_all_loop classify rs with
      | error e => simp [fetch_all_loop, hp, hrest] at h
      | ok rest =>
        simp only [fetch_all_loop, hp, hrest] at h
        cases h
        intro a ha
        rcases List.mem_append.mp ha with h1 | h1
        · exact processPage_ok_mem classify r articles hp a h1
        · exact ih rest hrest a h1

theorem fetch_all_ok_mem (oracle : RequestParams → FetchResult) (classify : String → SResp)
    (symbols : Option String) (base_limit : Int) (l : List Article)
    (h : fetch_all_news_pages oracle classify symbols base_limit = .ok l) :
    ∀ a ∈ l, ∃ b, a = enrichArticle classify b :=
  fetch_all_loop_ok_mem classify _ l h

theorem enrichArticle_wellFormed (classify : String → SResp) (b : TransformedArticle)
    (hcl : ∀ text, scoresInUnit (classify text)) :
    articleWellFormed (enrichArticle classify b) :=
  ⟨get_sentiment_label _, get_sentiment_score _ (hcl _)⟩

/-! ### Success conditions for the transformer and pipeline -/

/-- Well-formedness of one raw record: every key the transformer can read
is present — `uuid`, `title`, `description`, `snippet`, `source`, `url`,
`published_at`, `entities`, and each entity's `type` and `symbol`.  The
source's transformer raises `KeyError` on a record missing any accessed
key, so presence of `entities` alone is not enough for safety. -/
def recordWellFormed (r : RawRecord) : Bool :=
  r.uuid.isSome && r.title.isSome && r.description.isSome && r.snippet.isSome &&
    r.source.isSome && r.url.isSome && r.published_at.isSome &&
    match r.entities with
    | none => false
    | some ents => ents.all (fun e => e.type.isSome && e.symbol.isSome)

/-- Well-formedness of one gathered page result: every record of a parsed
page carries every key the transformer reads. -/
def pageRecordsWellFormed : FetchResult → Prop
  | .page data => ∀ r ∈ data, recordWellFormed r = true
  | _ => True

theorem relatedSymbolsOf_ok (ents : List RawEntity)
    (h : ∀ e ∈ ents, e.type.isSome && e.symbol.isSome) :
    ∃ syms, relatedSymbolsOf ents = .ok syms := by
  induction ents with
  | nil => exact ⟨[], rfl⟩
  | cons e es ih =>
    have he := h e (List.mem_cons_self e es)
    rw [Bool.and_eq_true] at he
    rcases Option.isSome_iff_exists.mp he.1 with ⟨t, ht⟩
    rcases Option.isSome_iff_exists.mp he.2 with ⟨sym, hsym⟩
    rcases ih (fun x hx => h x (List.mem_cons_of_mem e hx)) with ⟨rest, hrest⟩
    by_cases heq : t == "equity"
    · exact ⟨sym :: rest, by simp [relatedSymbolsOf, ht, hsym, heq, hrest]⟩
    · exact ⟨rest, by simp only [relatedSymbolsOf, ht, hsym, heq, hrest, Bool.false_eq_true,
        if_false]⟩

theorem descriptionOrSnippet_ok (description : Option String) (s : String) :
    ∃ v, descriptionOrSnippet description (some s) = .ok v := by
  cases description with
  | none => exact ⟨s, rfl⟩
  | some d =>
    by_cases hd : d = ""
    · exact ⟨s, by simp [descriptionOrSnippet, hd]⟩
    · exact ⟨d, by simp [descriptionOrSnippet, hd]⟩

theorem transform_news_record_ok (r : RawRecord) (h : recordWellFormed r = true) :
    ∃ a, transform_news_record r = .ok a := by
  obtain ⟨uuid, title, description, snippet, source, url, published_at, entities⟩ := r
  simp only [recordWellFormed, Bool.and_eq_true] at h
  obtain ⟨⟨⟨⟨⟨⟨⟨hu, hti⟩, hde⟩, hsn⟩, hso⟩, hur⟩, hpu⟩, hen⟩ := h
  rcases Option.isSome_iff_exists.mp hu with ⟨u, rfl⟩
  rcases Option.isSome_iff_exists.mp hti with ⟨ti, rfl⟩
  rcases Option.isSome_iff_exists.mp hde with ⟨de, rfl⟩
  rcases Option.isSome_iff_exists.mp hsn with ⟨sn, rfl⟩
  rcases Option.isSome_iff_exists.mp hso with ⟨so, rfl⟩
  rcases Option.isSome_iff_exists.mp hur with ⟨ur, rfl⟩
  rcases Option.isSome_iff_exists.mp hpu with ⟨pu, rfl⟩
  cases entities with
  | none => cases hen
  | some ents =>
    rw [List.all_eq_true] at hen
    rcases relatedSymbolsOf_ok ents (fun e he => hen e he) with ⟨syms, hsyms⟩
    rcases descriptionOrSnippet_ok de sn with ⟨v, hv⟩
    refine ⟨{ id := u, title := ti, description := v, source := so, url := ur,
              publishedAt := pu, relatedSymbols := syms }, ?_⟩
    simp only [transform_news_record, hsyms, hv]

theorem transform_news_data_ok (rs : List RawRecord)
    (h : ∀ r ∈ rs, recordWellFormed r = true) :
    ∃ l, transform_news_data rs = .ok l := by
  induction rs with
  | nil => exact ⟨[], rfl⟩
  | cons r rs ih =>
    rcases transform_news_record_ok r (h r (List.mem_cons_self r rs)) with ⟨a, ha⟩
    rcases ih (fun x hx => h x (List.mem_cons_of_mem r hx)) with ⟨rest, hrest⟩
    exact ⟨a :: rest, by simp [transform_news_data, ha, hrest]⟩

theorem processPage_ok (classify : String → SResp) (r : FetchResult)
    (h : pageRecordsWellFormed r) : ∃ l, processPage classify r = .ok l := by
  cases r with
  | failure => exact ⟨[], rfl⟩
  | noData => exact ⟨[], rfl⟩
  | page data =>
    rcases transform_news_data_ok data h with ⟨nd, hnd⟩
    exact ⟨nd.map (enrichArticle classify), by simp [processPage, hnd]⟩

theorem fetch_all_loop_ok (classify : String → SResp) (rs : List FetchResult)
    (h : ∀ r ∈ rs, pageRecordsWellFormed r) : ∃ l, fetch_all_loop classify rs = .ok l := by
  induction rs with
  | nil => exact ⟨[], rfl⟩
  | cons r rs ih =>
    rcases processPage_ok classify r (h r (List.mem_cons_self r rs)) with ⟨articles, ha⟩
    rcases ih (fun x hx => h x (List.mem_cons_of_mem r hx)) with ⟨rest, hrest⟩
    exact ⟨articles ++ rest, by simp [fetch_all_loop, ha, hrest]⟩

theorem fetch_all_ok (oracle : RequestParams → FetchResult) (classify : String → SResp)
    (symbols : Option String) (base_limit : Int)
    (h : ∀ p ∈ issuedRequests symbols base_limit, pageRecordsWellFormed (oracle p)) :
    ∃ l, fetch_all_news_pages oracle classify symbols base_limit = .ok l := by
  apply fetch_all_loop_ok
  intro r hr
  rcases List.mem_map.mp hr with ⟨p, hp, rfl⟩
  exact h p hp

/-! ### State-transition facts about the two endpoints -/

theorem cacheGet_mem {α : Type} (ttl : Nat) (entries : TTLStore α) (key : String)
    (now : Nat) (v : α) (h : cacheGet ttl entries key now = some v) :
    ∃ k t, (k, t, v) ∈ entries := by
  unfold cacheGet at h
  cases hf : entries.find? (fun e => e.1 == key) with
  | none => rw [hf] at h; cases h
  | some e =>
    obtain ⟨k, t, v'⟩ := e
    rw [hf] at h
    dsimp only at h
    by_cases ht : now < t + ttl
    · rw [if_pos ht] at h
      cases h
      exact ⟨k, t, List.mem_of_find?_eq_some hf⟩
    · rw [if_neg ht] at h; cases h

theorem get_news_rate_cache (oracle : RequestParams → FetchResult)
    (classify : String → SResp) (st : ServerState) (symbols : Option String)
    (page limit : Int) (now : Nat)
    (h : rlContains st.rate_limit_cache (rateLimitKeyNews symbols) now = false) :
    (get_news oracle classify st symbols page limit now).2.rate_limit_cache =
      (rateLimitKeyNews symbols, now) :: st.rate_limit_cache := by
  simp only [get_news, h, Bool.false_eq_true, if_false]
  cases cacheGet NEWS_CACHE_TTL st.news_cache (newsCacheKey symbols page limit) now with
  | some cached => rfl
  | none =>
    cases fetch_all_news_pages oracle classify symbols (Int.fdiv limit 3) with
    | error msg => rfl
    | ok fetched_news =>
      by_cases he : fetched_news.isEmpty <;> simp [he]

theorem rlContains_cons_self (key : String) (t : Nat) (rest : List (String × Nat))
    (now : Nat) : rlContains ((key, t) :: rest) key now = decide (now < t + RATE_LIMIT_TTL) := by
  simp [rlContains, List.find?_cons_of_pos]

theorem get_news_rateLimited_of_contains (oracle : RequestParams → FetchResult)
    (classify : String → SResp) (st : ServerState) (symbols : Option String)
    (page limit : Int) (now : Nat)
    (h : rlContains st.rate_limit_cache (rateLimitKeyNews symbols) now = true) :
    get_news oracle classify st symbols page limit now = (.rateLimited, st) := by
  simp [get_news, h]

theorem get_news_not_rateLimited (oracle : RequestParams → FetchResult)
    (classify : String → SResp) (st : ServerState) (symbols : Option String)
    (page limit : Int) (now : Nat)
    (h : rlContains st.rate_limit_cache (rateLimitKeyNews symbols) now = false) :
    (get_news oracle classify st symbols page limit now).1 ≠ .rateLimited := by
  simp only [get_news, h, Bool.false_eq_true, if_false]
  cases cacheGet NEWS_CACHE_TTL st.news_cache (newsCacheKey symbols page limit) now with
  | some cached => simp
  | none =>
    cases fetch_all_news_pages oracle classify symbols (Int.fdiv limit 3) with
    | error msg => simp
    | ok fetched_news => by_cases he : fetched_news.isEmpty <;> simp [he]

theorem get_news_cases (oracle : RequestParams → FetchResult) (classify : String → SResp)
    (st : ServerState) (symbols : Option String) (page limit : Int) (now : Nat) :
    (get_news oracle classify st symbols page limit now).1 = .rateLimited ∨
      (∃ l, (get_news oracle classify st symbols page limit now).1 = .ok l) ∨
      (∃ msg, fetch_all_news_pages oracle classify symbols (Int.fdiv limit 3) = .error msg ∧
        (get_news oracle classify st symbols page limit now).1 = .internalError msg) := by
  by_cases hr : rlContains st.rate_limit_cache (rateLimitKeyNews symbols) now
  · exact Or.inl (by simp [get_news, hr])
  · rw [Bool.not_eq_true] at hr
    simp only [get_news, hr, Bool.false_eq_true, if_false]
    cases cacheGet NEWS_CACHE_TTL st.news_cache (newsCacheKey symbols page limit) now with
    | some cached => exact Or.inr (Or.inl ⟨cached, rfl⟩)
    | none =>
      cases fetch_all_news_pages oracle classify symbols (Int.fdiv limit 3) with
      | error msg => exact Or.inr (Or.inr ⟨msg, rfl, rfl⟩)
      | ok fetched_news =>
        by_cases he : fetched_news.isEmpty
        · exact Or.inr (Or.inl ⟨[], by simp [he]⟩)
        · exact Or.inr (Or.inl ⟨sortArticlesDesc fetched_news, by simp [he]⟩)

theorem get_news_fresh (oracle : RequestParams → FetchResult) (classify : String → SResp)
    (st : ServerState) (symbols : Option String) (page limit : Int) (now : Nat)
    (l : List Article)
    (hmiss : cacheGet NEWS_CACHE_TTL st.news_cache (newsCacheKey symbols page limit) now = none)
    (hok : (get_news oracle classify st symbols page limit now).1 = .ok l) (hne : l ≠ []) :
    ∃ fetched, fetch_all_news_pages oracle classify symbols (Int.fdiv limit 3) = .ok fetched ∧
      l = sortArticlesDesc fetched := by
  by_cases hr : rlContains st.rate_limit_cache (rateLimitKeyNews symbols) now
  · simp [get_news, hr] at hok
  · rw [Bool.not_eq_true] at hr
    simp only [get_news, hr, Bool.false_eq_true, if_false] at hok
    rw [hmiss] at hok
    cases hf : fetch_all_news_pages oracle classify symbols (Int.fdiv limit 3) with
    | error msg => rw [hf] at hok; simp at hok
    | ok fetched_news =>
      rw [hf] at hok
      by_cases he : fetched_news.isEmpty
      · simp only [he, if_true] at hok
        simp at hok
        exact absurd hok hne
      · simp only [he, Bool.false_eq_true, if_false] at hok
        simp at hok
        exact ⟨fetched_news, rfl, hok.symm⟩

theorem refresh_news_ok_state (oracle : RequestParams → FetchResult)
    (classify : String → SResp) (st : ServerState) (symbols : Option String) (now : Nat)
    (a : List Article) (st' : ServerState)
    (h : refresh_news oracle classify st symbols now = (.ok a, st')) (hne : a ≠ []) :
    st'.news_cache = cachePut st.news_cache (newsCacheKey symbols 1 30) now a ∧
      st'.rate_limit_cache = (rateLimitKeyRefresh symbols, now) :: st.rate_limit_cache ∧
      ∃ fetched, fetch_all_news_pages oracle classify symbols 10 = .ok fetched ∧
        a = sortArticlesDesc fetched := by
  by_cases hr : rlContains st.rate_limit_cache (rateLimitKeyRefresh symbols) now
  · simp [refresh_news, hr] at h
  · rw [Bool.not_eq_true] at hr
    simp only [refresh_news, hr, Bool.false_eq_true, if_false] at h
    cases hf : fetch_all_news_pages oracle classify symbols 10 with
    | error msg => rw [hf] at h; simp at h
    | ok fetched_news =>
      rw [hf] at h
      by_cases he : fetched_news.isEmpty
      · simp only [he, if_true] at h
        simp [Prod.ext_iff] at h
        exact absurd h.1 hne
      · simp only [he, Bool.false_eq_true, if_false] at h
        simp only [Prod.mk.injEq, NewsResponse.ok.injEq] at h
        obtain ⟨ha, hst⟩ := h
        subst ha
        subst hst
        exact ⟨rfl, rfl, fetched_news, rfl, rfl⟩

theorem refresh_news_rejects_of_contains (oracle : RequestParams → FetchResult)
    (classify : String → SResp) (st : ServerState) (symbols : Option String) (now : Nat)
    (h : rlContains st.rate_limit_cache (rateLimitKeyRefresh symbols) now = true) :
    refresh_news oracle classify st symbols now = (.rateLimited, st) := by
  simp [refresh_news, h]

theorem refresh_news_cases (oracle : RequestParams → FetchResult)
    (classify : String → SResp) (st : ServerState) (symbols : Option String) (now : Nat) :
    (refresh_news oracle classify st symbols now).1 = .rateLimited ∨
      (∃ l, (refresh_news oracle classify st symbols now).1 = .ok l) ∨
      (∃ msg, fetch_all_news_pages oracle classify symbols 10 = .error msg ∧
        (refresh_news oracle classify st symbols now).1 = .internalError msg) := by
  by_cases hr : rlContains st.rate_limit_cache (rateLimitKeyRefresh symbols) now
  · exact Or.inl (by simp [refresh_news, hr])
  · rw [Bool.not_eq_true] at hr
    simp only [refresh_news, hr, Bool.false_eq_true, if_false]
    cases fetch_all_news_pages oracle classify symbols 10 with
    | error msg => exact Or.inr (Or.inr ⟨msg, rfl, rfl⟩)
    | ok fetched_news =>
      by_cases he : fetched_news.isEmpty
      · exact Or.inr (Or.inl ⟨[], by simp [he]⟩)
      · exact Or.inr (Or.inl ⟨sortArticlesDesc fetched_news, by simp [he]⟩)

/-! ### Claim theorems -/

theorem option_some_beq (a b : String) : ((some a == some b) : Bool) = (a == b) := rfl

theorem relatedSymbolsOf_spec (ents : List RawEntity) (syms : List String)
    (h : relatedSymbolsOf ents = .ok syms) :
    syms = (ents.filter (fun e => e.type == some "equity")).filterMap RawEntity.symbol := by
  induction ents generalizing syms with
  | nil => cases h; rfl
  | cons e es ih =>
    cases ht : e.type with
    | none => simp only [relatedSymbolsOf, ht] at h; cases h
    | some t =>
      simp only [relatedSymbolsOf, ht] at h
      by_cases heq : (t == "equity") = true
      · rw [if_pos heq] at h
        cases hsym : e.symbol with
        | none => simp only [hsym] at h; cases h
        | some sym =>
          simp only [hsym] at h
          cases hrest : relatedSymbolsOf es with
          | error err => simp only [hrest] at h; cases h
          | ok rest =>
            simp only [hrest, Except.ok.injEq] at h
            subst h
            simp [List.filter_cons, ht, option_some_beq, heq, List.filterMap_cons, hsym,
              ih rest hrest]
      · rw [if_neg heq] at h
        rw [Bool.not_eq_true] at heq
        simp [List.filter_cons, ht, option_some_beq, heq, ih syms h]

theorem transform_news_record_spec (r : RawRecord) (a : TransformedArticle)
    (h : transform_news_record r = .ok a) :
    (∀ d, r.description = some (some d) → d ≠ "" → a.description = d) ∧
      (∀ s, r.snippet = some s →
        (r.description = some none ∨ r.description = some (some "")) →
        a.description = s) ∧
      (∀ ents, r.entities = some ents →
        a.relatedSymbols =
          (ents.filter (fun e => e.type == some "equity")).filterMap RawEntity.symbol) := by
  obtain ⟨uuid, title, description, snippet, source, url, published_at, entities⟩ := r
  cases entities with
  | none => simp only [transform_news_record] at h; cases h
  | some ents =>
  cases hrel : relatedSymbolsOf ents with
  | error e1 => simp only [transform_news_record, hrel] at h; cases h
  | ok syms =>
  cases uuid with
  | none => simp only [transform_news_record, hrel] at h; cases h
  | some u =>
  cases title with
  | none => simp only [transform_news_record, hrel] at h; cases h
  | some ti =>
  cases description with
  | none => simp only [transform_news_record, hrel] at h; cases h
  | some de =>
  cases hds : descriptionOrSnippet de snippet with
  | error e2 => simp only [transform_news_record, hrel, hds] at h; cases h
  | ok dval =>
  cases source with
  | none => simp only [transform_news_record, hrel, hds] at h; cases h
  | some so =>
  cases url with
  | none => simp only [transform_news_record, hrel, hds] at h; cases h
  | some ur =>
  cases published_at with
  | none => simp only [transform_news_record, hrel, hds] at h; cases h
  | some pu =>
  simp only [transform_news_record, hrel, hds] at h
  cases h
  refine ⟨fun d hd hdne => ?_, fun s hs hcase => ?_, fun ents2 he2 => ?_⟩
  · cases hd
    simp only [descriptionOrSnippet, if_neg hdne] at hds
    cases hds
    rfl
  · cases hs
    rcases hcase with hd | hd
    · cases hd
      simp only [descriptionOrSnippet] at hds
      cases hds
      rfl
    · cases hd
      simp only [descriptionOrSnippet, if_pos rfl] at hds
      cases hds
      rfl
  · cases he2
    exact relatedSymbolsOf_spec ents syms hrel

/-- C5: on every page of records that the transformer accepts (each record
carrying every key the transformer reads, cf. `recordWellFormed`), the
produced articles pair up with the records so that the description is the
long-form description when non-empty (`null` and `""` are falsy) and the
snippet otherwise, and `relatedSymbols` is exactly the symbols of the
`"equity"`-typed entities in entity-list order, every other type
excluded. -/
theorem claim5_transform_mapping (data : List RawRecord)
    (h : ∀ r ∈ data, recordWellFormed r = true) :
    ∃ l, transform_news_data data = .ok l ∧
      List.Forall₂ (fun (r : RawRecord) (a : TransformedArticle) =>
        (∀ d, r.description = some (some d) → d ≠ "" → a.description = d) ∧
          (∀ s, r.snippet = some s →
            (r.description = some none ∨ r.description = some (some "")) →
            a.description = s) ∧
          (∀ ents, r.entities = some ents →
            a.relatedSymbols =
              (ents.filter (fun e => e.type == some "equity")).filterMap RawEntity.symbol))
        data l := by
  induction data with
  | nil => exact ⟨[], rfl, List.Forall₂.nil⟩
  | cons r rs ih =>
    rcases transform_news_record_ok r (h r (List.mem_cons_self r rs)) with ⟨a, ha⟩
    rcases ih (fun x hx => h x (List.mem_cons_of_mem r hx)) with ⟨rest, hrest, hf⟩
    exact ⟨a :: rest, by simp [transform_news_data, ha, hrest],
      List.Forall₂.cons (transform_news_record_spec r a ha) hf⟩

/-- A concrete provider record exercising the description fallback and
the equity filter, used to instantiate the C5 theorem. -/
def sampleRecordC5 : RawRecord :=
  { uuid := some "u1"
    title := some "T"
    description := some (some "")
    snippet := some "S"
    source := some "A"
    url := some "http://a"
    published_at := some "2024-01-01"
    entities := some [⟨some "equity", some "AAPL"⟩, ⟨some "index", some "SPX"⟩,
      ⟨some "equity", some "MSFT"⟩] }

theorem claim5_transform_mapping_witness :
    (∀ r ∈ [sampleRecordC5], recordWellFormed r = true) ∧
    ∃ l, transform_news_data [sampleRecordC5] = .ok l ∧
      List.Forall₂ (fun (r : RawRecord) (a : TransformedArticle) =>
        (∀ d, r.description = some (some d) → d ≠ "" → a.description = d) ∧
          (∀ s, r.snippet = some s →
            (r.description = some none ∨ r.description = some (some "")) →
            a.description = s) ∧
          (∀ ents, r.entities = some ents →
            a.relatedSymbols =
              (ents.filter (fun e => e.type == some "equity")).filterMap RawEntity.symbol))
        [sampleRecordC5] l :=
  ⟨by decide, claim5_transform_mapping _ (by decide)⟩

/-- C4: the classifier returns exactly `("NEUTRAL", 0.5)` on every failed
call and on an empty ranked list, and on a well-formed non-empty response
whose top label does not lower-case to positive/neutral/negative it
returns `"NEUTRAL"` paired with that top score. -/
theorem claim4_classifier_defaults (c : LabelScore) (cs : List LabelScore) :
    get_sentiment SResp.failure = ("NEUTRAL", 0.5) ∧
      get_sentiment (SResp.ok []) = ("NEUTRAL", 0.5) ∧
      (pyLower (maxByScore c cs).label ∉ (["positive", "neutral", "negative"] : List String) →
        get_sentiment (SResp.ok (c :: cs)) = ("NEUTRAL", (maxByScore c cs).score)) := by
  refine ⟨by rw [get_sentiment, half_eq_ofScientific], by rw [get_sentiment, half_eq_ofScientific], fun h => ?_⟩
  simp only [List.mem_cons, List.mem_singleton, not_or] at h
  obtain ⟨h1, h2, h3⟩ := h
  simp [get_sentiment, sentiment_mapping, h1, h2, h3]

theorem claim4_classifier_defaults_witness :
    pyLower (maxByScore ⟨"MIXED", 3/4⟩ []).label ∉
      (["positive", "neutral", "negative"] : List String) ∧
    get_sentiment (SResp.ok [⟨"MIXED", 3/4⟩]) = ("NEUTRAL", (maxByScore ⟨"MIXED", 3/4⟩ []).score) :=
  ⟨by decide, (claim4_classifier_defaults ⟨"MIXED", 3/4⟩ []).2.2 (by decide)⟩

/-- C6: the pipeline issues exactly four upstream fetches, for pages 1-4,
each with the same symbols parameter and the same per-page limit; and when
all four come back `null` the pipeline yields the empty list, not an
error. -/
theorem claim6_fixed_fanout (symbols : Option String) (base_limit : Int)
    (oracle : RequestParams → FetchResult) (classify : String → SResp) :
    issuedRequests symbols base_limit =
      [⟨pyOr symbols "", "true", "en", 1, base_limit⟩,
       ⟨pyOr symbols "", "true", "en", 2, base_limit⟩,
       ⟨pyOr symbols "", "true", "en", 3, base_limit⟩,
       ⟨pyOr symbols "", "true", "en", 4, base_limit⟩] ∧
    ((∀ p ∈ issuedRequests symbols base_limit, oracle p = .failure) →
      fetch_all_news_pages oracle classify symbols base_limit = .ok []) := by
  refine ⟨rfl, fun h => ?_⟩
  have h1 := h ⟨pyOr symbols "", "true", "en", 1, base_limit⟩ (by simp [issuedRequests, List.range', requestParamsFor])
  have h2 := h ⟨pyOr symbols "", "true", "en", 2, base_limit⟩ (by simp [issuedRequests, List.range', requestParamsFor])
  have h3 := h ⟨pyOr symbols "", "true", "en", 3, base_limit⟩ (by simp [issuedRequests, List.range', requestParamsFor])
  have h4 := h ⟨pyOr symbols "", "true", "en", 4, base_limit⟩ (by simp [issuedRequests, List.range', requestParamsFor])
  show fetch_all_loop classify ((issuedRequests symbols base_limit).map oracle) = .ok []
  have e : issuedRequests symbols base_limit =
      [⟨pyOr symbols "", "true", "en", 1, base_limit⟩,
       ⟨pyOr symbols "", "true", "en", 2, base_limit⟩,
       ⟨pyOr symbols "", "true", "en", 3, base_limit⟩,
       ⟨pyOr symbols "", "true", "en", 4, base_limit⟩] := rfl
  rw [e]
  simp [List.map, h1, h2, h3, h4, fetch_all_loop, processPage]

theorem claim6_fixed_fanout_witness :
    (∀ p ∈ issuedRequests none 10, (fun _ => FetchResult.failure) p = FetchResult.failure) ∧
    fetch_all_news_pages (fun _ => FetchResult.failure) (fun _ => SResp.failure) none 10 =
      .ok [] :=
  ⟨fun _ _ => rfl,
    (claim6_fixed_fanout none 10 (fun _ => FetchResult.failure) (fun _ => SResp.failure)).2
      (fun _ _ => rfl)⟩

/-- C8: with the 600-unit TTL, a cache write followed by a read of the
same key at the same instant returns exactly the stored list, and any read
at or after 600 time units past the write misses. -/
theorem claim8_cache_ttl (st : TTLStore (List Article)) (key : String) (t t' : Nat)
    (v : List Article) :
    NEWS_CACHE_TTL = 600 ∧
      cacheGet NEWS_CACHE_TTL (cachePut st key t v) key t = some v ∧
      (t + 600 ≤ t' → cacheGet NEWS_CACHE_TTL (cachePut st key t v) key t' = none) := by
  refine ⟨rfl, ?_, fun h => ?_⟩
  · simp [cacheGet, cachePut, List.find?_cons_of_pos, NEWS_CACHE_TTL]
  · simp only [cacheGet, cachePut, List.find?_cons_of_pos, beq_self_eq_true, NEWS_CACHE_TTL]
    rw [if_neg (by omega)]

theorem claim8_cache_ttl_witness :
    cacheGet NEWS_CACHE_TTL (cachePut ([] : TTLStore (List Article)) "k" 0 []) "k" 0 =
      some [] ∧
    cacheGet NEWS_CACHE_TTL (cachePut ([] : TTLStore (List Article)) "k" 0 []) "k" 600 =
      none :=
  ⟨(claim8_cache_ttl [] "k" 0 600 []).2.1,
    (claim8_cache_ttl [] "k" 0 600 []).2.2 (by omega)⟩

/-- C10: a request without `symbols` and a request with `symbols=""` share
the rate-limit key `"rate_limit:general"` and send identical upstream
query parameters (symbols `""`), yet their cache keys differ
(`news:None:…` versus `news::…`), so one's cached result is never served
for the other. -/
theorem claim10_none_vs_empty_symbols (page limit : Int) :
    rateLimitKeyNews none = "rate_limit:general" ∧
      rateLimitKeyNews (some "") = "rate_limit:general" ∧
      requestParamsFor none page limit = requestParamsFor (some "") page limit ∧
      (requestParamsFor none page limit).symbols = "" ∧
      newsCacheKey none page limit ≠ newsCacheKey (some "") page limit := by
  refine ⟨by decide, by decide, rfl, rfl, fun h => ?_⟩
  have h2 := congrArg String.data h
  simp only [newsCacheKey, pyStr, String.data_append] at h2
  simp at h2

/-- C7: once a `/api/news` request for some symbols passes the rate gate at
time `t`, any further request with the same symbols strictly inside
`(t, t + 10)` is answered 429, whatever its page/limit or the upstream
behaviour; and any request at or after `t + 10` (rejected requests do not
touch the marker) passes the gate again. -/
theorem claim7_rate_limit_window (oracle oracle2 : RequestParams → FetchResult)
    (classify classify2 : String → SResp) (st : ServerState) (symbols : Option String)
    (page limit page2 limit2 : Int) (t : Nat)
    (h1 : (get_news oracle classify st symbols page limit t).1 ≠ .rateLimited) :
    (∀ t', t < t' → t' < t + RATE_LIMIT_TTL →
      (get_news oracle2 classify2 (get_news oracle classify st symbols page limit t).2
        symbols page2 limit2 t').1 = .rateLimited) ∧
    (∀ t', t + RATE_LIMIT_TTL ≤ t' →
      (get_news oracle2 classify2 (get_news oracle classify st symbols page limit t).2
        symbols page2 limit2 t').1 ≠ .rateLimited) := by
  by_cases hr : rlContains st.rate_limit_cache (rateLimitKeyNews symbols) t
  · exact absurd (by rw [get_news_rateLimited_of_contains oracle classify st symbols
      page limit t hr]) h1
  · rw [Bool.not_eq_true] at hr
    have hcache := get_news_rate_cache oracle classify st symbols page limit t hr
    constructor
    · intro t' ht1 ht2
      have hc : rlContains
          (get_news oracle classify st symbols page limit t).2.rate_limit_cache
          (rateLimitKeyNews symbols) t' = true := by
        rw [hcache, rlContains_cons_self]
        simpa using ht2
      rw [get_news_rateLimited_of_contains oracle2 classify2 _ symbols page2 limit2 t' hc]
    · intro t' ht
      apply get_news_not_rateLimited
      rw [hcache, rlContains_cons_self]
      simpa using ht

theorem claim7_rate_limit_window_witness :
    (get_news (fun _ => FetchResult.failure) (fun _ => SResp.failure)
      (get_news (fun _ => FetchResult.failure) (fun _ => SResp.failure)
        ⟨[], []⟩ none 1 30 0).2 none 1 30 5).1 = .rateLimited ∧
    (get_news (fun _ => FetchResult.failure) (fun _ => SResp.failure)
      (get_news (fun _ => FetchResult.failure) (fun _ => SResp.failure)
        ⟨[], []⟩ none 1 30 0).2 none 1 30 10).1 ≠ .rateLimited :=
  ⟨(claim7_rate_limit_window (fun _ => FetchResult.failure) (fun _ => FetchResult.failure)
      (fun _ => SResp.failure) (fun _ => SResp.failure) ⟨[], []⟩ none 1 30 1 30 0
      (by decide)).1 5 (by decide) (by decide),
    (claim7_rate_limit_window (fun _ => FetchResult.failure) (fun _ => FetchResult.failure)
      (fun _ => SResp.failure) (fun _ => SResp.failure) ⟨[], []⟩ none 1 30 1 30 0
      (by decide)).2 10 (by decide)⟩

/-- C9: after a refresh for some symbols returns a non-empty list `a`, a
standard `/api/news` call with the same symbols, `page=1`, `limit=30` that
passes its own rate gate within the cache TTL answers exactly `a` from the
cache, independently of the upstream oracles (no new fetch). -/
theorem claim9_refresh_visibility (oracle oracle2 : RequestParams → FetchResult)
    (classify classify2 : String → SResp) (st : ServerState) (symbols : Option String)
    (t t' : Nat) (a : List Article) (st' : ServerState)
    (hrun : refresh_news oracle classify st symbols t = (.ok a, st'))
    (hne : a ≠ [])
    (hrl : rlContains st'.rate_limit_cache (rateLimitKeyNews symbols) t' = false)
    (_ht1 : t ≤ t') (ht2 : t' < t + NEWS_CACHE_TTL) :
    (get_news oracle2 classify2 st' symbols 1 30 t').1 = .ok a := by
  obtain ⟨hc, -, -⟩ :=
    refresh_news_ok_state oracle classify st symbols t a st' hrun hne
  have hhit : cacheGet NEWS_CACHE_TTL st'.news_cache (newsCacheKey symbols 1 30) t' =
      some a := by
    rw [hc]
    simp only [cacheGet, cachePut, List.find?_cons_of_pos, beq_self_eq_true]
    rw [if_pos (by omega)]
  simp only [get_news, hrl, Bool.false_eq_true, if_false, hhit]

/-- A provider record used to instantiate the refresh-visibility theorem. -/
def recC9 : RawRecord :=
  { uuid := some "u9"
    title := some "T9"
    description := some (some "D9")
    snippet := some "S9"
    source := some "A"
    url := some "http://a"
    published_at := some "2024-02-01"
    entities := some [] }

/-- The article the pipeline produces from `recC9` under an always-failing
classifier. -/
def artC9 : Article :=
  { id := "u9"
    title := "T9"
    description := "D9"
    source := "A"
    url := "http://a"
    publishedAt := "2024-02-01"
    relatedSymbols := []
    sentiment := "NEUTRAL"
    sentiment_score := half }

/-- A provider oracle answering only page 1, used for the C9 witness. -/
def oracleC9 : RequestParams → FetchResult :=
  fun p => if p.page == 1 then .page [recC9] else .failure

theorem claim9_refresh_visibility_witness :
    (get_news (fun _ => FetchResult.failure) (fun _ => SResp.failure)
      ⟨[("news:None:1:30", 0, [artC9])], [("rate_limit_refresh:general", 0)]⟩
      none 1 30 0).1 = .ok [artC9] :=
  claim9_refresh_visibility oracleC9 (fun _ => FetchResult.failure)
    (fun _ => SResp.failure) (fun _ => SResp.failure) ⟨[], []⟩ none 0 0 [artC9]
    ⟨[("news:None:1:30", 0, [artC9])], [("rate_limit_refresh:general", 0)]⟩
    (by decide) (by decide) (by decide) (by decide) (by decide)

/-- C1: whenever `/api/news` (on a cache miss) or `/api/news/refresh`
computes a fresh non-empty answer, the list returned is the page-order
concatenation produced by the pipeline, reordered by `sortArticlesDesc`:
a permutation of it, sorted by `publishedAt` descending, and stable — for
every timestamp the articles carrying it stay in concatenation order. -/
theorem claim1_sorted_stable (oracle : RequestParams → FetchResult)
    (classify : String → SResp) (st : ServerState) (symbols : Option String)
    (page limit : Int) (now : Nat) (lg lr fg fr : List Article) :
    ((cacheGet NEWS_CACHE_TTL st.news_cache (newsCacheKey symbols page limit) now = none →
      (get_news oracle classify st symbols page limit now).1 = .ok lg → lg ≠ [] →
      fetch_all_news_pages oracle classify symbols (Int.fdiv limit 3) = .ok fg →
      lg = sortArticlesDesc fg ∧ List.Perm lg fg ∧ lg.Sorted articleDesc ∧
        ∀ ts, lg.filter (fun x => x.publishedAt == ts) =
          fg.filter (fun x => x.publishedAt == ts)) ∧
     ((refresh_news oracle classify st symbols now).1 = .ok lr → lr ≠ [] →
      fetch_all_news_pages oracle classify symbols 10 = .ok fr →
      lr = sortArticlesDesc fr ∧ List.Perm lr fr ∧ lr.Sorted articleDesc ∧
        ∀ ts, lr.filter (fun x => x.publishedAt == ts) =
          fr.filter (fun x => x.publishedAt == ts))) := by
  constructor
  · intro hmiss hok hne hf
    rcases get_news_fresh oracle classify st symbols page limit now lg hmiss hok hne with
      ⟨fetched, hf2, hsort⟩
    rw [hf] at hf2
    cases hf2
    rcases sortArticlesDesc_spec fg with ⟨hperm, hsorted, hstable⟩
    exact ⟨hsort, hsort ▸ hperm, hsort ▸ hsorted, fun ts => hsort ▸ hstable ts⟩
  · intro hok hne hf
    rcases hq : refresh_news oracle classify st symbols now with ⟨res, st2⟩
    rw [hq] at hok
    simp only at hok
    subst hok
    obtain ⟨-, -, fetched, hf2, hsort⟩ :=
      refresh_news_ok_state oracle classify st symbols now lr st2 hq hne
    rw [hf] at hf2
    cases hf2
    rcases sortArticlesDesc_spec fr with ⟨hperm, hsorted, hstable⟩
    exact ⟨hsort, hsort ▸ hperm, hsort ▸ hsorted, fun ts => hsort ▸ hstable ts⟩

/-- Provider records with distinct timestamps for the C1 witness. -/
def recC1a : RawRecord :=
  { uuid := some "u1"
    title := some "T1"
    description := some (some "D1")
    snippet := some "S1"
    source := some "A"
    url := some "http://a"
    published_at := some "2024-01-01"
    entities := some [⟨some "equity", some "AAPL"⟩] }

def recC1b : RawRecord :=
  { uuid := some "u2"
    title := some "T2"
    description := some (some "D2")
    snippet := some "S2"
    source := some "B"
    url := some "http://b"
    published_at := some "2024-01-03"
    entities := some [] }

/-- The two enriched articles the pipeline produces from `recC1a` and
`recC1b` under an always-failing classifier. -/
def artC1a : Article :=
  { id := "u1"
    title := "T1"
    description := "D1"
    source := "A"
    url := "http://a"
    publishedAt := "2024-01-01"
    relatedSymbols := ["AAPL"]
    sentiment := "NEUTRAL"
    sentiment_score := half }

def artC1b : Article :=
  { id := "u2"
    title := "T2"
    description := "D2"
    source := "B"
    url := "http://b"
    publishedAt := "2024-01-03"
    relatedSymbols := []
    sentiment := "NEUTRAL"
    sentiment_score := half }

/-- A provider oracle answering only page 1, used for the C1 witness. -/
def oracleC1 : RequestParams → FetchResult :=
  fun p => if p.page == 1 then .page [recC1a, recC1b] else .failure

theorem claim1_sorted_stable_witness :
    ([artC1b, artC1a] : List Article).Sorted articleDesc ∧
    [artC1b, artC1a].filter (fun x => x.publishedAt == "2024-01-03") =
      [artC1a, artC1b].filter (fun x => x.publishedAt == "2024-01-03") :=
  ⟨((claim1_sorted_stable oracleC1 (fun _ => SResp.failure) ⟨[], []⟩ none 1 30 0
      [artC1b, artC1a] [artC1b, artC1a] [artC1a, artC1b] [artC1a, artC1b]).1
      (by decide) (by decide) (by decide) (by decide)).2.2.1,
    ((claim1_sorted_stable oracleC1 (fun _ => SResp.failure) ⟨[], []⟩ none 1 30 0
      [artC1b, artC1a] [artC1b, artC1a] [artC1a, artC1b] [artC1a, artC1b]).1
      (by decide) (by decide) (by decide) (by decide)).2.2.2 "2024-01-03"⟩

/-- C2 (amended): provided every sentiment-service response carries scores
inside `[0, 1]` — the service's contract, which the code does not enforce —
and every previously cached list satisfies the invariant, every article
list answered by `/api/news` or `/api/news/refresh` consists of articles
with a three-way sentiment label and a score in `[0, 1]`.  The label part
needs no assumption; the score is copied unclamped from the response. -/
theorem claim2_enrichment_invariant (oracle : RequestParams → FetchResult)
    (classify : String → SResp) (st : ServerState) (symbols : Option String)
    (page limit : Int) (now : Nat)
    (hcl : ∀ text, scoresInUnit (classify text))
    (hst : ∀ e ∈ st.news_cache, ∀ a ∈ e.2.2, articleWellFormed a) :
    (∀ l, (get_news oracle classify st symbols page limit now).1 = .ok l →
      ∀ a ∈ l, articleWellFormed a) ∧
    (∀ l, (refresh_news oracle classify st symbols now).1 = .ok l →
      ∀ a ∈ l, articleWellFormed a) := by
  constructor
  · intro l hok a ha
    by_cases hr : rlContains st.rate_limit_cache (rateLimitKeyNews symbols) now
    · rw [get_news_rateLimited_of_contains oracle classify st symbols page limit now hr]
        at hok
      cases hok
    · rw [Bool.not_eq_true] at hr
      simp only [get_news, hr, Bool.false_eq_true, if_false] at hok
      cases hget : cacheGet NEWS_CACHE_TTL st.news_cache (newsCacheKey symbols page limit)
          now with
      | some cached =>
        rw [hget] at hok
        simp only [NewsResponse.ok.injEq] at hok
        rcases cacheGet_mem NEWS_CACHE_TTL st.news_cache
          (newsCacheKey symbols page limit) now cached hget with ⟨k, t, hmem⟩
        exact hst (k, t, cached) hmem a (hok.symm ▸ ha)
      | none =>
        rw [hget] at hok
        cases hf : fetch_all_news_pages oracle classify symbols (Int.fdiv limit 3) with
        | error msg => rw [hf] at hok; cases hok
        | ok fetched =>
          rw [hf] at hok
          by_cases he : fetched.isEmpty
          · simp only [he, if_true, NewsResponse.ok.injEq] at hok
            subst hok
            cases ha
          · simp only [he, Bool.false_eq_true, if_false, NewsResponse.ok.injEq] at hok
            subst hok
            have hmem : a ∈ fetched := ((sortArticlesDesc_spec fetched).1.mem_iff).mp ha
            rcases fetch_all_ok_mem oracle classify symbols (Int.fdiv limit 3) fetched hf
              a hmem with ⟨b, hb⟩
            exact hb ▸ enrichArticle_wellFormed classify b hcl
  · intro l hok a ha
    by_cases hr : rlContains st.rate_limit_cache (rateLimitKeyRefresh symbols) now
    · rw [refresh_news_rejects_of_contains oracle classify st symbols now hr] at hok
      cases hok
    · rw [Bool.not_eq_true] at hr
      simp only [refresh_news, hr, Bool.false_eq_true, if_false] at hok
      cases hf : fetch_all_news_pages oracle classify symbols 10 with
      | error msg => rw [hf] at hok; cases hok
      | ok fetched =>
        rw [hf] at hok
        by_cases he : fetched.isEmpty
        · simp only [he, if_true, NewsResponse.ok.injEq] at hok
          subst hok
          cases ha
        · simp only [he, Bool.false_eq_true, if_false, NewsResponse.ok.injEq] at hok
          subst hok
          have hmem : a ∈ fetched := ((sortArticlesDesc_spec fetched).1.mem_iff).mp ha
          rcases fetch_all_ok_mem oracle classify symbols 10 fetched hf a hmem with ⟨b, hb⟩
          exact hb ▸ enrichArticle_wellFormed classify b hcl

/-- A provider record used for the C2 counterexample and witness runs. -/
def recC2 : RawRecord :=
  { uuid := some "u3"
    title := some "T3"
    description := some (some "D3")
    snippet := some "S3"
    source := some "C"
    url := some "http://c"
    published_at := some "2024-03-01"
    entities := some [] }

/-- A provider oracle answering only page 1 with `recC2`. -/
def oracleC2 : RequestParams → FetchResult :=
  fun p => if p.page == 1 then .page [recC2] else .failure

/-- The article `/api/news` returns from `recC2` when the sentiment
service reports the (out-of-contract) confidence `2`: the score is copied
through unclamped. -/
def artC2bad : Article :=
  { id := "u3"
    title := "T3"
    description := "D3"
    source := "C"
    url := "http://c"
    publishedAt := "2024-03-01"
    relatedSymbols := []
    sentiment := "POSITIVE"
    sentiment_score := 2 }

/-- C2 counterexample: with a well-formed sentiment response whose top
score is `2`, `/api/news` returns an article whose `sentiment_score` lies
outside `[0, 1]` — the code never clamps the score, so the claimed
invariant fails for this upstream response. -/
theorem claim2_counterexample :
    (get_news oracleC2 (fun _ => SResp.ok [⟨"positive", 2⟩]) ⟨[], []⟩ none 1 30 0).1 =
      .ok [artC2bad] ∧ ¬(artC2bad.sentiment_score ≤ 1) := by
  constructor
  · decide
  · decide

/-- The article produced from `recC2` under an in-contract classifier
answering confidence `1`. -/
def artC2good : Article :=
  { id := "u3"
    title := "T3"
    description := "D3"
    source := "C"
    url := "http://c"
    publishedAt := "2024-03-01"
    relatedSymbols := []
    sentiment := "POSITIVE"
    sentiment_score := 1 }

theorem claim2_enrichment_invariant_witness : articleWellFormed artC2good :=
  (claim2_enrichment_invariant oracleC2 (fun _ => SResp.ok [⟨"positive", 1⟩])
      ⟨[], []⟩ none 1 30 0
      (fun _ classes h => by
        cases h
        intro cl hcl
        simp only [List.mem_singleton] at hcl
        subst hcl
        exact ⟨by decide, by decide⟩)
      (fun e he => absurd he (List.not_mem_nil e))).1
    [artC2good] (by decide) artC2good (by decide)

/-- A parsed page record with no `entities` key: `transform_news_data`
raises `KeyError` on it. -/
def badRecC3 : RawRecord :=
  { uuid := some "u4"
    title := some "T4"
    description := some (some "D4")
    snippet := some "S4"
    source := some "D"
    url := some "http://d"
    published_at := some "2024-04-01"
    entities := none }

/-- A parsed page record that does carry its `entities` key but lacks
`uuid`: the transformer raises on it all the same. -/
def badRecC3u : RawRecord :=
  { uuid := none
    title := some "T5"
    description := some (some "D5")
    snippet := some "S5"
    source := some "E"
    url := some "http://e"
    published_at := some "2024-05-01"
    entities := some [] }

/-- C3 counterexample: a page whose body parses but contains a malformed
record makes the transformer raise inside the pipeline; the exception
escapes `fetch_all_news_pages` and `/api/news` answers with the
500-equivalent internal error, not an empty sequence.  Both raising
shapes are exhibited: a record without its `entities` key and a record
that has `entities` but lacks `uuid`. -/
theorem claim3_counterexample :
    (get_news (fun _ => FetchResult.page [badRecC3]) (fun _ => SResp.failure)
      ⟨[], []⟩ none 1 30 0).1 = .internalError "KeyError: entities" ∧
    (get_news (fun _ => FetchResult.page [badRecC3u]) (fun _ => SResp.failure)
      ⟨[], []⟩ none 1 30 0).1 = .internalError "KeyError: uuid" := by
  constructor
  · decide
  · decide

/-- C3 (amended): as long as every parsed page's records are well-formed
(each record carries every key the transformer reads — `uuid`, `title`,
`description`, `snippet`, `source`, `url`, `published_at`, `entities`,
and each entity's `type` and `symbol`), neither endpoint ever answers
with an internal error, whatever the transport failures, `data`-less
bodies, or sentiment-service behaviour; a record missing any accessed key
voids this (see the counterexample). -/
theorem claim3_no_internal_error (oracle : RequestParams → FetchResult)
    (classify : String → SResp) (st : ServerState) (symbols : Option String)
    (page limit : Int) (now : Nat)
    (h : ∀ p, pageRecordsWellFormed (oracle p)) :
    (∀ msg, (get_news oracle classify st symbols page limit now).1 ≠
      .internalError msg) ∧
    (∀ msg, (refresh_news oracle classify st symbols now).1 ≠ .internalError msg) := by
  constructor
  · intro msg hbad
    rcases get_news_cases oracle classify st symbols page limit now with h1 | ⟨l, h1⟩ |
      ⟨m, hf, h1⟩
    · rw [h1] at hbad; cases hbad
    · rw [h1] at hbad; cases hbad
    · rcases fetch_all_ok oracle classify symbols (Int.fdiv limit 3)
        (fun p _ => h p) with ⟨l, hl⟩
      rw [hl] at hf
      cases hf
  · intro msg hbad
    rcases refresh_news_cases oracle classify st symbols now with h1 | ⟨l, h1⟩ |
      ⟨m, hf, h1⟩
    · rw [h1] at hbad; cases hbad
    · rw [h1] at hbad; cases hbad
    · rcases fetch_all_ok oracle classify symbols 10 (fun p _ => h p) with ⟨l, hl⟩
      rw [hl] at hf
      cases hf

theorem claim3_no_internal_error_witness :
    (get_news (fun _ => FetchResult.page [recC1a]) (fun _ => SResp.failure)
      ⟨[], []⟩ none 1 30 0).1 ≠ .internalError "KeyError: entities" :=
  (claim3_no_internal_error (fun _ => FetchResult.page [recC1a]) (fun _ => SResp.failure)
      ⟨[], []⟩ none 1 30 0
      (fun p => by
        show pageRecordsWellFormed (FetchResult.page [recC1a])
        intro r hr
        simp only [List.mem_singleton] at hr
        subst hr
        decide)).1 "KeyError: entities"

theorem claim10_none_vs_empty_symbols_witness :
    rateLimitKeyNews none = "rate_limit:general" ∧
    newsCacheKey none 1 30 ≠ newsCacheKey (some "") 1 30 :=
  ⟨(claim10_none_vs_empty_symbols 1 30).1,
    (claim10_none_vs_empty_symbols 1 30).2.2.2.2⟩
